import Mathlib

/-!
Verification of the msdos partition-table builder
(`kiwi/partitioner/msdos.py`, class `PartitionerMsDos`).

The Python class is a sequential state machine: it keeps a partition slot
counter (`partition_id`), an optional start-sector cursor (`start_sector`),
and runs external commands (`fdisk` via a generated script, `parted`,
`sfdisk`).  We embed it as explicit state passing: every method becomes a
function from a `PartitionerState` to a result, the new state and a trace of
external events (tool invocations and log lines).  Whether an external
command succeeds is decided by an oracle `ok : Nat → Bool`, indexed by the
number of commands run so far, so that the try/except in `_call_fdisk` can
be modelled faithfully.
-/

namespace KiwiMsDos

/-- Partition size argument: either the `all_free` sentinel string or a
megabyte count (Python passes an int). -/
inductive MBSize
  | all_free
  | mb (n : Int)
deriving DecidableEq

/-- A value of the Python `flag_map` dict: `True`, a type-code string, or
`None`. -/
inductive FlagVal
  | pyTrue
  | pyStr (c : String)
  | pyNone
deriving DecidableEq

/-- Python truthiness of a `flag_map` value, as used by
`if self.flag_map[flag_name]:`. -/
def FlagVal.truthy : FlagVal → Bool
  | .pyTrue => true
  | .pyStr c => c ≠ ""
  | .pyNone => false

/-- Python `format(value)` of a `flag_map` value (the argument handed to
`sfdisk`). -/
def FlagVal.fmt : FlagVal → String
  | .pyTrue => "True"
  | .pyStr c => c
  | .pyNone => "None"

/-- The `flag_map` dict set up in `post_init`. -/
def flag_map : String → Option FlagVal
  | "f.active" => some .pyTrue
  | "t.linux" => some (.pyStr "83")
  | "t.swap" => some (.pyStr "82")
  | "t.lvm" => some (.pyStr "8e")
  | "t.raid" => some (.pyStr "fd")
  | "t.efi" => some .pyNone
  | "t.csm" => some .pyNone
  | "t.prep" => some (.pyStr "41")
  | "t.extended" => some (.pyStr "5")
  | _ => none

/-- The structured content of a generated fdisk script: the partition kind
selector, the slot number, the start-sector token and the size token.
`render` below produces the exact text written to the temporary file. -/
inductive FdiskScript
  | primary (partition_id : Nat) (start : String) (size : String)
  | extended (partition_id : Nat)
  | logical (partition_id : Nat) (size : String)
deriving DecidableEq

/-- The exact script text written by `_create_primary` / `_create_extended`
/ `_create_logical`: the format templates are
`n\np\n{0}\n{1}\n{2}\nw\nq\n`, `n\ne\n{0}\n{1}\n{2}\nw\nq\n` (with both
tokens empty) and `n\n{0}\n{1}\n{2}\nw\nq\n` (with an empty start token). -/
def FdiskScript.render : FdiskScript → String
  | .primary pid st sz =>
      "n\np\n" ++ toString pid ++ "\n" ++ st ++ "\n" ++ sz ++ "\nw\nq\n"
  | .extended pid =>
      "n\ne\n" ++ toString pid ++ "\n" ++ "" ++ "\n" ++ "" ++ "\nw\nq\n"
  | .logical pid sz =>
      "n\n" ++ toString pid ++ "\n" ++ "" ++ "\n" ++ sz ++ "\nw\nq\n"

/-- An observable external event: a tool invocation or a log line.
`fdiskCall` is the scripted `bash -c 'cat script | fdisk device'`
invocation, `partedCall d p` is `parted d set p boot on`, and
`sfdiskCall d p c` is `sfdisk -c d p c`. -/
inductive Event
  | fdiskCall (disk_device : String) (script : FdiskScript)
  | partedCall (disk_device : String) (partition_id : Nat)
  | sfdiskCall (disk_device : String) (partition_id : Nat) (code : String)
  | logDebug (msg : String)
  | logWarning (msg : String)
deriving DecidableEq

/-- The exceptions that can cross a method boundary:
`KiwiPartitionerMsDosFlagError` with its message, or a failure raised by
`Command.run`. -/
inductive KiwiError
  | msDosFlagError (msg : String)
  | commandError
deriving DecidableEq

/-- Modelled from the spec: the mutable state a `PartitionerMsDos` instance
inherits from `PartitionerBase` (not part of the sources at hand): the slot
counter `partition_id`, which "starts at 0", and the optional
"Start Sector Cursor" fixed at construction.  `cmds_run` is our index of
external commands issued so far, used to address the failure oracle. -/
structure PartitionerState where
  partition_id : Nat
  start_sector : Option Nat
  cmds_run : Nat
deriving DecidableEq

instance : DecidableEq (Except KiwiError Unit) := fun a b => by
  cases a with
  | ok u =>
      cases b with
      | ok v => cases u; cases v; exact isTrue rfl
      | error f => exact isFalse (by intro h; cases h)
  | error e =>
      cases b with
      | ok v => exact isFalse (by intro h; cases h)
      | error f =>
          cases heq : decide (e = f) with
          | true => exact isTrue (by rw [of_decide_eq_true heq])
          | false =>
              exact isFalse (by
                intro h; cases h; rw [decide_eq_true rfl] at heq; cases heq)

/-- The outcome of one method call: the Python return/raise status, the
state after the call (mutations survive an exception), and the trace of
external events, in order. -/
structure StepResult where
  res : Except KiwiError Unit
  st : PartitionerState
  tr : List Event
deriving DecidableEq

/-- Sequencing of two statements under Python exception semantics: if the
first raised, the second never runs (the state mutations and events of the
first survive); otherwise run the second on the resulting state and
concatenate the traces. -/
def StepResult.andThen (r : StepResult) (k : PartitionerState → StepResult) :
    StepResult :=
  match r with
  | ⟨.ok _, s1, t1⟩ =>
      let r2 := k s1
      ⟨r2.res, r2.st, t1 ++ r2.tr⟩
  | ⟨.error e, s1, t1⟩ => ⟨.error e, s1, t1⟩

/-- Prepend a log line emitted before the statements of `r` run. -/
def StepResult.withLog (e : Event) (r : StepResult) : StepResult :=
  ⟨r.res, r.st, e :: r.tr⟩

/-- One `Command.run` invocation: it succeeds or raises according to the
oracle at the current command index; the attempted invocation is recorded
in the trace either way. -/
def commandRun (ok : Nat → Bool) (e : Event) (s : PartitionerState) :
    StepResult :=
  if ok s.cmds_run then
    ⟨.ok (), { s with cmds_run := s.cmds_run + 1 }, [e]⟩
  else
    ⟨.error .commandError, { s with cmds_run := s.cmds_run + 1 }, [e]⟩

/-- `_call_fdisk`: pipe the generated script into fdisk; any exception from
the invocation is swallowed and logged at debug level. -/
def call_fdisk (ok : Nat → Bool) (disk_device : String)
    (script : FdiskScript) (s : PartitionerState) : StepResult :=
  match commandRun ok (.fdiskCall disk_device script) s with
  | ⟨.ok _, s1, t1⟩ => ⟨.ok (), s1, t1⟩
  | ⟨.error _, s1, t1⟩ =>
      ⟨.ok (), s1, t1 ++ [.logDebug "potential fdisk errors were ignored"]⟩

/-- `set_flag`: reject unknown flag names before any external call, skip
falsy (None) encodings with a warning, send `f.active` to parted and every
other truthy encoding to sfdisk. -/
def set_flag (ok : Nat → Bool) (disk_device : String) (partition_id : Nat)
    (flag_name : String) (s : PartitionerState) : StepResult :=
  match flag_map flag_name with
  | none =>
      ⟨.error (.msDosFlagError ("Unknown partition flag " ++ flag_name)),
        s, []⟩
  | some v =>
      if v.truthy then
        if flag_name = "f.active" then
          commandRun ok (.partedCall disk_device partition_id) s
        else
          commandRun ok (.sfdiskCall disk_device partition_id v.fmt) s
      else
        ⟨.ok (), s,
          [.logWarning ("Flag " ++ flag_name ++ " ignored on msdos")]⟩

/-- The `for flag_name in flags` loop of `_set_all_flags`: apply each flag
in order to the given slot, stopping at the first exception. -/
def set_flags_loop (ok : Nat → Bool) (disk_device : String)
    (partition_id : Nat) :
    List String → PartitionerState → StepResult
  | [], s => ⟨.ok (), s, []⟩
  | flag_name :: rest, s =>
      (set_flag ok disk_device partition_id flag_name s).andThen
        (set_flags_loop ok disk_device partition_id rest)

/-- `_set_all_flags`: apply the type name, then each secondary flag, all
addressed to the current `partition_id`. -/
def set_all_flags (ok : Nat → Bool) (disk_device : String)
    (type_name : String) (flags : List String) (s : PartitionerState) :
    StepResult :=
  (set_flag ok disk_device s.partition_id type_name s).andThen
    (fun s1 => set_flags_loop ok disk_device s1.partition_id flags s1)

/-- The start-sector token of `_create_primary`:
`'' if not self.start_sector else self.start_sector` (Python truthiness,
so both `None` and `0` give the empty token). -/
def startToken : Option Nat → String
  | none => ""
  | some n => if n = 0 then "" else toString n

/-- The size token: `'' if mbsize == 'all_free' else '+{0}M'.format(mbsize)`. -/
def sizeToken : MBSize → String
  | .all_free => ""
  | .mb n => "+" ++ toString n ++ "M"

/-- Python `format(mbsize)` as it appears in the debug log line. -/
def mbsizeFmt : MBSize → String
  | .all_free => "all_free"
  | .mb n => toString n

/-- `_create_primary`: bump the slot counter, clear the start-sector cursor
once the counter exceeds 1, write and run the primary-partition script,
then apply the type name and flags. -/
def create_primary (ok : Nat → Bool) (disk_device : String) (name : String)
    (mbsize : MBSize) (type_name : String) (flags : List String)
    (s : PartitionerState) : StepResult :=
  let s1 : PartitionerState := { s with partition_id := s.partition_id + 1 }
  let s2 : PartitionerState :=
    if s1.partition_id > 1 then { s1 with start_sector := none } else s1
  let script : FdiskScript :=
    .primary s2.partition_id (startToken s2.start_sector) (sizeToken mbsize)
  let dbg : Event :=
    .logDebug (name ++ ": fdisk: n p " ++ toString s2.partition_id ++
      " cur_position +" ++ mbsizeFmt mbsize ++ "M w q")
  StepResult.withLog dbg
    ((call_fdisk ok disk_device script s2).andThen
      (fun s3 => set_all_flags ok disk_device type_name flags s3))

/-- `_create_extended`: bump the slot counter and run the
extended-partition script; no flags are applied. -/
def create_extended (ok : Nat → Bool) (disk_device : String) (name : String)
    (s : PartitionerState) : StepResult :=
  let s1 : PartitionerState := { s with partition_id := s.partition_id + 1 }
  let script : FdiskScript := .extended s1.partition_id
  let dbg : Event :=
    .logDebug (name ++ ": fdisk: n e " ++ toString s1.partition_id ++
      " cur_position +all_freeM w q")
  StepResult.withLog dbg (call_fdisk ok disk_device script s1)

/-- `_create_logical`: bump the slot counter, run the logical-partition
script (empty start token), then apply the type name and flags. -/
def create_logical (ok : Nat → Bool) (disk_device : String) (name : String)
    (mbsize : MBSize) (type_name : String) (flags : List String)
    (s : PartitionerState) : StepResult :=
  let s1 : PartitionerState := { s with partition_id := s.partition_id + 1 }
  let script : FdiskScript := .logical s1.partition_id (sizeToken mbsize)
  let dbg : Event :=
    .logDebug (name ++ ": fdisk: n " ++ toString s1.partition_id ++
      " cur_position +" ++ mbsizeFmt mbsize ++ "M w q")
  StepResult.withLog dbg
    ((call_fdisk ok disk_device script s1).andThen
      (fun s2 => set_all_flags ok disk_device type_name flags s2))

/-- `create`: route a creation request to primary / extended+logical /
logical according to the layout mode and the current slot counter. -/
def create (ok : Nat → Bool) (disk_device : String)
    (extended_layout : Bool) (name : String) (mbsize : MBSize)
    (type_name : String) (flags : List String) (s : PartitionerState) :
    StepResult :=
  if extended_layout then
    if s.partition_id < 3 then
      create_primary ok disk_device name mbsize type_name flags s
    else if s.partition_id = 3 then
      (create_extended ok disk_device name s).andThen
        (fun s1 => create_logical ok disk_device name mbsize type_name flags s1)
    else
      create_logical ok disk_device name mbsize type_name flags s
  else
    create_primary ok disk_device name mbsize type_name flags s

/-- `resize_table`: a no-op for the msdos table format. -/
def resize_table (s : PartitionerState) : StepResult := ⟨.ok (), s, []⟩

/-- One partition creation request, as handed to `create`. -/
structure Request where
  name : String
  mbsize : MBSize
  type_name : String
  flags : List String
deriving DecidableEq

/-- A sequence of `create` calls; an uncaught exception stops the caller. -/
def runCreates (ok : Nat → Bool) (disk_device : String)
    (extended_layout : Bool) :
    List Request → PartitionerState → StepResult
  | [], s => ⟨.ok (), s, []⟩
  | q :: qs, s =>
      (create ok disk_device extended_layout q.name q.mbsize
          q.type_name q.flags s).andThen
        (runCreates ok disk_device extended_layout qs)

/-- Modelled from the spec: a freshly constructed builder — the slot
counter "starts at 0" and the start-sector cursor holds whatever the
constructor received (`PartitionerBase` is outside the sources at hand). -/
def initState (start_sector : Option Nat) : PartitionerState :=
  { partition_id := 0, start_sector := start_sector, cmds_run := 0 }

/-- The all-commands-succeed oracle. -/
def okAll : Nat → Bool := fun _ => true

/-- The all-commands-fail oracle. -/
def okNever : Nat → Bool := fun _ => false

/-- The spec scenario: three requests (boot, 50, t.linux, []),
(swap, 2048, t.swap, []), (root, all_free, t.linux, [f.active]). -/
def scenario3 : List Request :=
  [ ⟨"boot", .mb 50, "t.linux", []⟩,
    ⟨"swap", .mb 2048, "t.swap", []⟩,
    ⟨"root", .all_free, "t.linux", ["f.active"]⟩ ]

/-- The spec scenario extended by a fourth request, which is the one that
actually reaches the extended boundary. -/
def scenario4 : List Request :=
  scenario3 ++ [⟨"extra", .all_free, "t.linux", ["f.active"]⟩]

lemma andThen_ok {r : StepResult} (k : PartitionerState → StepResult)
    (h : r.res = .ok ()) :
    r.andThen k = ⟨(k r.st).res, (k r.st).st, r.tr ++ (k r.st).tr⟩ := by
  obtain ⟨res, s1, t1⟩ := r
  cases res with
  | ok u => rfl
  | error e => cases h

lemma andThen_err {r : StepResult} (k : PartitionerState → StepResult)
    {e : KiwiError} (h : r.res = .error e) : r.andThen k = r := by
  obtain ⟨res, s1, t1⟩ := r
  cases res with
  | ok u => cases h
  | error f => rfl

lemma andThen_tr_sub {r : StepResult} (k : PartitionerState → StepResult) :
    ∀ e ∈ (r.andThen k).tr, e ∈ r.tr ∨ e ∈ (k r.st).tr := by
  obtain ⟨res, s1, t1⟩ := r
  cases res with
  | ok u =>
      intro e he
      simp only [StepResult.andThen] at he
      exact List.mem_append.mp he
  | error f => intro e he; exact Or.inl he

lemma andThen_st_or {r : StepResult} (k : PartitionerState → StepResult) :
    (r.andThen k).st = (k r.st).st ∨ (r.andThen k).st = r.st := by
  obtain ⟨res, s1, t1⟩ := r
  cases res with
  | ok u => exact Or.inl rfl
  | error f => exact Or.inr rfl

lemma commandRun_st (ok : Nat → Bool) (e : Event) (s : PartitionerState) :
    (commandRun ok e s).st = { s with cmds_run := s.cmds_run + 1 } := by
  unfold commandRun; split <;> rfl

lemma commandRun_tr (ok : Nat → Bool) (e : Event) (s : PartitionerState) :
    (commandRun ok e s).tr = [e] := by
  unfold commandRun; split <;> rfl

lemma call_fdisk_eq (ok : Nat → Bool) (d : String) (scr : FdiskScript)
    (s : PartitionerState) :
    call_fdisk ok d scr s =
      ⟨.ok (), { s with cmds_run := s.cmds_run + 1 },
        if ok s.cmds_run then [.fdiskCall d scr]
        else [.fdiskCall d scr,
          .logDebug "potential fdisk errors were ignored"]⟩ := by
  unfold call_fdisk commandRun
  cases h : ok s.cmds_run <;> simp [h]

lemma call_fdisk_res (ok : Nat → Bool) (d : String) (scr : FdiskScript)
    (s : PartitionerState) : (call_fdisk ok d scr s).res = .ok () := by
  rw [call_fdisk_eq]

lemma set_flag_st (ok : Nat → Bool) (d : String) (pid : Nat) (fn : String)
    (s : PartitionerState) :
    (set_flag ok d pid fn s).st = s ∨
    (set_flag ok d pid fn s).st = { s with cmds_run := s.cmds_run + 1 } := by
  unfold set_flag
  cases hf : flag_map fn with
  | none => exact Or.inl rfl
  | some v =>
      by_cases ht : v.truthy = true
      · by_cases ha : fn = "f.active" <;>
          simp [ht, ha, commandRun_st]
      · simp [Bool.not_eq_true] at ht
        simp [ht]

lemma set_flag_pid (ok : Nat → Bool) (d : String) (pid : Nat) (fn : String)
    (s : PartitionerState) :
    (set_flag ok d pid fn s).st.partition_id = s.partition_id := by
  rcases set_flag_st ok d pid fn s with h | h <;> rw [h]

lemma set_flag_ss (ok : Nat → Bool) (d : String) (pid : Nat) (fn : String)
    (s : PartitionerState) :
    (set_flag ok d pid fn s).st.start_sector = s.start_sector := by
  rcases set_flag_st ok d pid fn s with h | h <;> rw [h]

/-- Shape of the events a `set_flag` call may emit: a parted or sfdisk
invocation addressed to the given slot, or a warning log line. -/
lemma set_flag_tr (ok : Nat → Bool) (d : String) (pid : Nat) (fn : String)
    (s : PartitionerState) :
    ∀ e ∈ (set_flag ok d pid fn s).tr,
      e = Event.partedCall d pid ∨ (∃ c, e = Event.sfdiskCall d pid c) ∨
      (∃ msg, e = Event.logWarning msg) := by
  unfold set_flag
  cases hf : flag_map fn with
  | none => simp
  | some v =>
      by_cases ht : v.truthy = true
      · by_cases ha : fn = "f.active" <;>
          simp [ht, ha, commandRun_tr]
      · simp [Bool.not_eq_true] at ht
        simp [ht]

lemma set_flags_loop_pid (ok : Nat → Bool) (d : String) (pid : Nat) :
    ∀ (fl : List String) (s : PartitionerState),
      (set_flags_loop ok d pid fl s).st.partition_id = s.partition_id := by
  intro fl
  induction fl with
  | nil => intro s; rfl
  | cons f rest ih =>
      intro s
      unfold set_flags_loop
      rcases andThen_st_or (r := set_flag ok d pid f s)
          (set_flags_loop ok d pid rest) with h | h <;> rw [h]
      · rw [ih, set_flag_pid]
      · rw [set_flag_pid]

lemma set_flags_loop_ss (ok : Nat → Bool) (d : String) (pid : Nat) :
    ∀ (fl : List String) (s : PartitionerState),
      (set_flags_loop ok d pid fl s).st.start_sector = s.start_sector := by
  intro fl
  induction fl with
  | nil => intro s; rfl
  | cons f rest ih =>
      intro s
      unfold set_flags_loop
      rcases andThen_st_or (r := set_flag ok d pid f s)
          (set_flags_loop ok d pid rest) with h | h <;> rw [h]
      · rw [ih, set_flag_ss]
      · rw [set_flag_ss]

lemma set_flags_loop_tr (ok : Nat → Bool) (d : String) (pid : Nat) :
    ∀ (fl : List String) (s : PartitionerState),
      ∀ e ∈ (set_flags_loop ok d pid fl s).tr,
        e = Event.partedCall d pid ∨ (∃ c, e = Event.sfdiskCall d pid c) ∨
        (∃ msg, e = Event.logWarning msg) := by
  intro fl
  induction fl with
  | nil => intro s e he; cases he
  | cons f rest ih =>
      intro s e he
      rcases andThen_tr_sub (r := set_flag ok d pid f s)
          (set_flags_loop ok d pid rest) e he with h | h
      · exact set_flag_tr ok d pid f s e h
      · exact ih _ e h

lemma set_all_flags_pid (ok : Nat → Bool) (d : String) (tn : String)
    (fl : List String) (s : PartitionerState) :
    (set_all_flags ok d tn fl s).st.partition_id = s.partition_id := by
  unfold set_all_flags
  rcases andThen_st_or (r := set_flag ok d s.partition_id tn s)
      (fun s1 => set_flags_loop ok d s1.partition_id fl s1) with h | h <;> rw [h]
  · rw [set_flags_loop_pid, set_flag_pid]
  · rw [set_flag_pid]

lemma set_all_flags_ss (ok : Nat → Bool) (d : String) (tn : String)
    (fl : List String) (s : PartitionerState) :
    (set_all_flags ok d tn fl s).st.start_sector = s.start_sector := by
  unfold set_all_flags
  rcases andThen_st_or (r := set_flag ok d s.partition_id tn s)
      (fun s1 => set_flags_loop ok d s1.partition_id fl s1) with h | h <;> rw [h]
  · rw [set_flags_loop_ss, set_flag_ss]
  · rw [set_flag_ss]

/-- Every event `set_all_flags` emits is a parted or sfdisk invocation
addressed to the current slot, or a warning log line. -/
lemma set_all_flags_tr (ok : Nat → Bool) (d : String) (tn : String)
    (fl : List String) (s : PartitionerState) :
    ∀ e ∈ (set_all_flags ok d tn fl s).tr,
      e = Event.partedCall d s.partition_id ∨
      (∃ c, e = Event.sfdiskCall d s.partition_id c) ∨
      (∃ msg, e = Event.logWarning msg) := by
  unfold set_all_flags
  intro e he
  rcases andThen_tr_sub (r := set_flag ok d s.partition_id tn s)
      (fun s1 => set_flags_loop ok d s1.partition_id fl s1) e he with h | h
  · exact set_flag_tr ok d s.partition_id tn s e h
  · have h2 := set_flags_loop_tr ok d
      ((set_flag ok d s.partition_id tn s).st.partition_id) fl
      ((set_flag ok d s.partition_id tn s).st) e h
    rwa [set_flag_pid] at h2

/-- The body of `_create_primary` after the slot bump and cursor clearing,
as a function of the already-updated state `s2` (whose `cmds_run` is still
the pre-call value). -/
def create_primary_core (ok : Nat → Bool) (d name : String) (m : MBSize)
    (tn : String) (fl : List String) (s2 : PartitionerState) : StepResult :=
  let r := set_all_flags ok d tn fl { s2 with cmds_run := s2.cmds_run + 1 }
  ⟨r.res, r.st,
    Event.logDebug (name ++ ": fdisk: n p " ++ toString s2.partition_id ++
      " cur_position +" ++ mbsizeFmt m ++ "M w q") ::
    ((if ok s2.cmds_run then
        [Event.fdiskCall d (.primary s2.partition_id
          (startToken s2.start_sector) (sizeToken m))]
      else
        [Event.fdiskCall d (.primary s2.partition_id
          (startToken s2.start_sector) (sizeToken m)),
         Event.logDebug "potential fdisk errors were ignored"]) ++ r.tr)⟩

lemma create_primary_eq (ok : Nat → Bool) (d name : String) (m : MBSize)
    (tn : String) (fl : List String) (s : PartitionerState) :
    create_primary ok d name m tn fl s =
      if s.partition_id + 1 > 1 then
        create_primary_core ok d name m tn fl
          ⟨s.partition_id + 1, none, s.cmds_run⟩
      else
        create_primary_core ok d name m tn fl
          ⟨s.partition_id + 1, s.start_sector, s.cmds_run⟩ := by
  by_cases h1 : s.partition_id + 1 > 1 <;>
    simp [create_primary, create_primary_core, call_fdisk_eq,
      StepResult.andThen, StepResult.withLog, h1]

/-- The body of `_create_logical` after the slot bump, as a function of the
already-updated state `s1`. -/
def create_logical_core (ok : Nat → Bool) (d name : String) (m : MBSize)
    (tn : String) (fl : List String) (s1 : PartitionerState) : StepResult :=
  let r := set_all_flags ok d tn fl { s1 with cmds_run := s1.cmds_run + 1 }
  ⟨r.res, r.st,
    Event.logDebug (name ++ ": fdisk: n " ++ toString s1.partition_id ++
      " cur_position +" ++ mbsizeFmt m ++ "M w q") ::
    ((if ok s1.cmds_run then
        [Event.fdiskCall d (.logical s1.partition_id (sizeToken m))]
      else
        [Event.fdiskCall d (.logical s1.partition_id (sizeToken m)),
         Event.logDebug "potential fdisk errors were ignored"]) ++ r.tr)⟩

lemma create_logical_eq (ok : Nat → Bool) (d name : String) (m : MBSize)
    (tn : String) (fl : List String) (s : PartitionerState) :
    create_logical ok d name m tn fl s =
      create_logical_core ok d name m tn fl
        ⟨s.partition_id + 1, s.start_sector, s.cmds_run⟩ := by
  simp [create_logical, create_logical_core, call_fdisk_eq,
    StepResult.andThen, StepResult.withLog]

lemma create_extended_eq (ok : Nat → Bool) (d name : String)
    (s : PartitionerState) :
    create_extended ok d name s =
      ⟨.ok (), ⟨s.partition_id + 1, s.start_sector, s.cmds_run + 1⟩,
        Event.logDebug (name ++ ": fdisk: n e " ++
          toString (s.partition_id + 1) ++ " cur_position +all_freeM w q") ::
        (if ok s.cmds_run then
          [Event.fdiskCall d (.extended (s.partition_id + 1))]
        else
          [Event.fdiskCall d (.extended (s.partition_id + 1)),
           Event.logDebug "potential fdisk errors were ignored"])⟩ := by
  simp [create_extended, call_fdisk_eq, StepResult.withLog]

lemma create_primary_core_pid (ok : Nat → Bool) (d name : String)
    (m : MBSize) (tn : String) (fl : List String) (s2 : PartitionerState) :
    (create_primary_core ok d name m tn fl s2).st.partition_id =
      s2.partition_id := by
  simp [create_primary_core, set_all_flags_pid]

lemma create_logical_core_pid (ok : Nat → Bool) (d name : String)
    (m : MBSize) (tn : String) (fl : List String) (s1 : PartitionerState) :
    (create_logical_core ok d name m tn fl s1).st.partition_id =
      s1.partition_id := by
  simp [create_logical_core, set_all_flags_pid]

lemma create_primary_pid (ok : Nat → Bool) (d name : String) (m : MBSize)
    (tn : String) (fl : List String) (s : PartitionerState) :
    (create_primary ok d name m tn fl s).st.partition_id =
      s.partition_id + 1 := by
  rw [create_primary_eq]
  split <;> rw [create_primary_core_pid]

lemma create_logical_pid (ok : Nat → Bool) (d name : String) (m : MBSize)
    (tn : String) (fl : List String) (s : PartitionerState) :
    (create_logical ok d name m tn fl s).st.partition_id =
      s.partition_id + 1 := by
  rw [create_logical_eq, create_logical_core_pid]

/-- Shape of the events one `_create_primary` call emits: log lines, the
one primary-partition fdisk script for the new slot (with the start token
cleared unless this is slot 1), and flag invocations addressed to the new
slot. -/
lemma create_primary_tr (ok : Nat → Bool) (d name : String) (m : MBSize)
    (tn : String) (fl : List String) (s : PartitionerState) :
    ∀ e ∈ (create_primary ok d name m tn fl s).tr,
      (∃ msg, e = Event.logDebug msg) ∨ (∃ msg, e = Event.logWarning msg) ∨
      e = Event.fdiskCall d (.primary (s.partition_id + 1)
            (if s.partition_id + 1 > 1 then "" else startToken s.start_sector)
            (sizeToken m)) ∨
      e = Event.partedCall d (s.partition_id + 1) ∨
      (∃ c, e = Event.sfdiskCall d (s.partition_id + 1) c) := by
  intro e he
  rw [create_primary_eq] at he
  by_cases h1 : s.partition_id + 1 > 1 <;>
    simp only [h1, if_true, if_false, ite_true, ite_false,
      create_primary_core, List.mem_cons, List.mem_append] at he ⊢
  · rcases he with rfl | he
    · exact Or.inl ⟨_, rfl⟩
    rcases he with he | he
    · by_cases hok : ok s.cmds_run = true
      · rw [if_pos hok] at he
        simp only [List.mem_singleton, startToken] at he
        subst he
        exact Or.inr (Or.inr (Or.inl rfl))
      · rw [if_neg hok] at he
        simp only [List.mem_cons, List.mem_singleton, List.not_mem_nil,
          or_false, startToken] at he
        rcases he with rfl | rfl
        · exact Or.inr (Or.inr (Or.inl rfl))
        · exact Or.inl ⟨_, rfl⟩
    · rcases set_all_flags_tr ok d tn fl _ e he with h4 | ⟨c, h4⟩ | ⟨msg, h4⟩
      · exact Or.inr (Or.inr (Or.inr (Or.inl h4)))
      · exact Or.inr (Or.inr (Or.inr (Or.inr ⟨c, h4⟩)))
      · exact Or.inr (Or.inl ⟨msg, h4⟩)
  · rcases he with rfl | he
    · exact Or.inl ⟨_, rfl⟩
    rcases he with he | he
    · by_cases hok : ok s.cmds_run = true
      · rw [if_pos hok] at he
        simp only [List.mem_singleton] at he
        subst he
        exact Or.inr (Or.inr (Or.inl rfl))
      · rw [if_neg hok] at he
        simp only [List.mem_cons, List.mem_singleton, List.not_mem_nil,
          or_false] at he
        rcases he with rfl | rfl
        · exact Or.inr (Or.inr (Or.inl rfl))
        · exact Or.inl ⟨_, rfl⟩
    · rcases set_all_flags_tr ok d tn fl _ e he with h4 | ⟨c, h4⟩ | ⟨msg, h4⟩
      · exact Or.inr (Or.inr (Or.inr (Or.inl h4)))
      · exact Or.inr (Or.inr (Or.inr (Or.inr ⟨c, h4⟩)))
      · exact Or.inr (Or.inl ⟨msg, h4⟩)

/-- Shape of the events one `_create_logical` call emits. -/
lemma create_logical_tr (ok : Nat → Bool) (d name : String) (m : MBSize)
    (tn : String) (fl : List String) (s : PartitionerState) :
    ∀ e ∈ (create_logical ok d name m tn fl s).tr,
      (∃ msg, e = Event.logDebug msg) ∨ (∃ msg, e = Event.logWarning msg) ∨
      e = Event.fdiskCall d (.logical (s.partition_id + 1) (sizeToken m)) ∨
      e = Event.partedCall d (s.partition_id + 1) ∨
      (∃ c, e = Event.sfdiskCall d (s.partition_id + 1) c) := by
  intro e he
  rw [create_logical_eq] at he
  simp only [create_logical_core, List.mem_cons, List.mem_append] at he
  rcases he with rfl | he
  · exact Or.inl ⟨_, rfl⟩
  rcases he with he | he
  · by_cases hok : ok s.cmds_run = true
    · rw [if_pos hok] at he
      simp only [List.mem_singleton] at he
      subst he
      exact Or.inr (Or.inr (Or.inl rfl))
    · rw [if_neg hok] at he
      simp only [List.mem_cons, List.mem_singleton, List.not_mem_nil,
        or_false] at he
      rcases he with rfl | rfl
      · exact Or.inr (Or.inr (Or.inl rfl))
      · exact Or.inl ⟨_, rfl⟩
  · rcases set_all_flags_tr ok d tn fl _ e he with h4 | ⟨c, h4⟩ | ⟨msg, h4⟩
    · exact Or.inr (Or.inr (Or.inr (Or.inl h4)))
    · exact Or.inr (Or.inr (Or.inr (Or.inr ⟨c, h4⟩)))
    · exact Or.inr (Or.inl ⟨msg, h4⟩)

/-- Shape of the events one `_create_extended` call emits: it issues the
one extended-container fdisk script for the new slot and applies no
flags at all. -/
lemma create_extended_tr (ok : Nat → Bool) (d name : String)
    (s : PartitionerState) :
    ∀ e ∈ (create_extended ok d name s).tr,
      (∃ msg, e = Event.logDebug msg) ∨
      e = Event.fdiskCall d (.extended (s.partition_id + 1)) := by
  intro e he
  rw [create_extended_eq] at he
  simp only [List.mem_cons] at he
  rcases he with rfl | he
  · exact Or.inl ⟨_, rfl⟩
  by_cases hok : ok s.cmds_run = true
  · rw [if_pos hok] at he
    simp only [List.mem_singleton] at he
    subst he
    exact Or.inr rfl
  · rw [if_neg hok] at he
    simp only [List.mem_cons, List.mem_singleton, List.not_mem_nil,
      or_false] at he
    rcases he with rfl | rfl
    · exact Or.inr rfl
    · exact Or.inl ⟨_, rfl⟩

lemma create_extended_pid (ok : Nat → Bool) (d name : String)
    (s : PartitionerState) :
    (create_extended ok d name s).st.partition_id = s.partition_id + 1 := by
  rw [create_extended_eq]

lemma create_extended_ss (ok : Nat → Bool) (d name : String)
    (s : PartitionerState) :
    (create_extended ok d name s).st.start_sector = s.start_sector := by
  rw [create_extended_eq]

lemma create_extended_res (ok : Nat → Bool) (d name : String)
    (s : PartitionerState) :
    (create_extended ok d name s).res = .ok () := by
  rw [create_extended_eq]

lemma create_primary_core_ss (ok : Nat → Bool) (d name : String)
    (m : MBSize) (tn : String) (fl : List String) (s2 : PartitionerState) :
    (create_primary_core ok d name m tn fl s2).st.start_sector =
      s2.start_sector := by
  simp [create_primary_core, set_all_flags_ss]

lemma create_primary_ss (ok : Nat → Bool) (d name : String) (m : MBSize)
    (tn : String) (fl : List String) (s : PartitionerState) :
    (create_primary ok d name m tn fl s).st.start_sector =
      if s.partition_id + 1 > 1 then none else s.start_sector := by
  rw [create_primary_eq]
  split <;> rw [create_primary_core_ss]

/-- The full routing table of `create`: every event it emits is a log line,
the primary script for the next slot (only before the extended boundary, or
in simple mode), the extended-container script for slot 4 (only at the
boundary, in extended mode), a logical script for a slot of number 5 or
more (only past the boundary, in extended mode), or a flag invocation
addressed to the slot of the partition the request produced — which is
never slot 4 in extended mode. -/
lemma create_tr_full (ok : Nat → Bool) (d : String) (ext : Bool)
    (name : String) (m : MBSize) (tn : String) (fl : List String)
    (s : PartitionerState) :
    ∀ e ∈ (create ok d ext name m tn fl s).tr,
      (∃ msg, e = Event.logDebug msg) ∨ (∃ msg, e = Event.logWarning msg) ∨
      (e = Event.fdiskCall d (.primary (s.partition_id + 1)
            (if s.partition_id + 1 > 1 then "" else startToken s.start_sector)
            (sizeToken m)) ∧ (ext = false ∨ s.partition_id < 3)) ∨
      (e = Event.fdiskCall d (.extended 4) ∧ ext = true ∧
        s.partition_id = 3) ∨
      (∃ pid, e = Event.fdiskCall d (.logical pid (sizeToken m)) ∧
        ext = true ∧ 3 ≤ s.partition_id ∧ 5 ≤ pid ∧
        pid = (if s.partition_id = 3 then s.partition_id + 2
               else s.partition_id + 1)) ∨
      (∃ pid, (e = Event.partedCall d pid ∨
          (∃ c, e = Event.sfdiskCall d pid c)) ∧
        pid = (if ext = true ∧ s.partition_id = 3 then s.partition_id + 2
               else s.partition_id + 1) ∧ (ext = true → pid ≠ 4)) := by
  intro e he
  cases ext with
  | false =>
      unfold create at he
      rw [if_neg (by simp)] at he
      rcases create_primary_tr ok d name m tn fl s e he with
        ⟨msg, rfl⟩ | ⟨msg, rfl⟩ | rfl | rfl | ⟨c, rfl⟩
      · exact Or.inl ⟨msg, rfl⟩
      · exact Or.inr (Or.inl ⟨msg, rfl⟩)
      · exact Or.inr (Or.inr (Or.inl ⟨rfl, Or.inl rfl⟩))
      · refine Or.inr (Or.inr (Or.inr (Or.inr (Or.inr
          ⟨s.partition_id + 1, Or.inl rfl, ?_, ?_⟩))))
        · rw [if_neg]; simp
        · intro h; cases h
      · refine Or.inr (Or.inr (Or.inr (Or.inr (Or.inr
          ⟨s.partition_id + 1, Or.inr ⟨c, rfl⟩, ?_, ?_⟩))))
        · rw [if_neg]; simp
        · intro h; cases h
  | true =>
      unfold create at he
      rw [if_pos rfl] at he
      by_cases h3 : s.partition_id < 3
      · rw [if_pos h3] at he
        rcases create_primary_tr ok d name m tn fl s e he with
          ⟨msg, rfl⟩ | ⟨msg, rfl⟩ | rfl | rfl | ⟨c, rfl⟩
        · exact Or.inl ⟨msg, rfl⟩
        · exact Or.inr (Or.inl ⟨msg, rfl⟩)
        · exact Or.inr (Or.inr (Or.inl ⟨rfl, Or.inr h3⟩))
        · refine Or.inr (Or.inr (Or.inr (Or.inr (Or.inr
            ⟨s.partition_id + 1, Or.inl rfl, ?_, ?_⟩))))
          · rw [if_neg]; intro hc; omega
          · intro _; omega
        · refine Or.inr (Or.inr (Or.inr (Or.inr (Or.inr
            ⟨s.partition_id + 1, Or.inr ⟨c, rfl⟩, ?_, ?_⟩))))
          · rw [if_neg]; intro hc; omega
          · intro _; omega
      · by_cases he3 : s.partition_id = 3
        · rw [if_neg h3, if_pos he3] at he
          rcases andThen_tr_sub _ e he with h | h
          · rcases create_extended_tr ok d name s e h with ⟨msg, rfl⟩ | rfl
            · exact Or.inl ⟨msg, rfl⟩
            · exact Or.inr (Or.inr (Or.inr (Or.inl
                ⟨by rw [he3], rfl, he3⟩)))
          · rcases create_logical_tr ok d name m tn fl
                ((create_extended ok d name s).st) e h with
              ⟨msg, rfl⟩ | ⟨msg, rfl⟩ | rfl | rfl | ⟨c, rfl⟩
            · exact Or.inl ⟨msg, rfl⟩
            · exact Or.inr (Or.inl ⟨msg, rfl⟩)
            · refine Or.inr (Or.inr (Or.inr (Or.inr (Or.inl
                ⟨(create_extended ok d name s).st.partition_id + 1,
                  rfl, rfl, ?_, ?_, ?_⟩))))
              · omega
              · rw [create_extended_pid]; omega
              · rw [create_extended_pid, if_pos he3]
            · refine Or.inr (Or.inr (Or.inr (Or.inr (Or.inr
                ⟨(create_extended ok d name s).st.partition_id + 1,
                  Or.inl rfl, ?_, ?_⟩))))
              · rw [create_extended_pid, if_pos ⟨rfl, he3⟩]
              · intro _; rw [create_extended_pid]; omega
            · refine Or.inr (Or.inr (Or.inr (Or.inr (Or.inr
                ⟨(create_extended ok d name s).st.partition_id + 1,
                  Or.inr ⟨c, rfl⟩, ?_, ?_⟩))))
              · rw [create_extended_pid, if_pos ⟨rfl, he3⟩]
              · intro _; rw [create_extended_pid]; omega
        · rw [if_neg h3, if_neg he3] at he
          rcases create_logical_tr ok d name m tn fl s e he with
            ⟨msg, rfl⟩ | ⟨msg, rfl⟩ | rfl | rfl | ⟨c, rfl⟩
          · exact Or.inl ⟨msg, rfl⟩
          · exact Or.inr (Or.inl ⟨msg, rfl⟩)
          · refine Or.inr (Or.inr (Or.inr (Or.inr (Or.inl
              ⟨s.partition_id + 1, rfl, rfl, ?_, ?_, ?_⟩))))
            · omega
            · omega
            · rw [if_neg he3]
          · refine Or.inr (Or.inr (Or.inr (Or.inr (Or.inr
              ⟨s.partition_id + 1, Or.inl rfl, ?_, ?_⟩))))
            · rw [if_neg]; intro hc; exact he3 hc.2
            · intro _; omega
          · refine Or.inr (Or.inr (Or.inr (Or.inr (Or.inr
              ⟨s.partition_id + 1, Or.inr ⟨c, rfl⟩, ?_, ?_⟩))))
            · rw [if_neg]; intro hc; exact he3 hc.2
            · intro _; omega

lemma create_pid (ok : Nat → Bool) (d : String) (ext : Bool) (name : String)
    (m : MBSize) (tn : String) (fl : List String) (s : PartitionerState) :
    (create ok d ext name m tn fl s).st.partition_id =
      if ext = true ∧ s.partition_id = 3 then s.partition_id + 2
      else s.partition_id + 1 := by
  cases ext with
  | false =>
      have hx : ¬ (false = true) := by simp
      have hy : ¬ (false = true ∧ s.partition_id = 3) := by simp
      unfold create
      rw [if_neg hx, create_primary_pid, if_neg hy]
  | true =>
      unfold create
      rw [if_pos rfl]
      by_cases h3 : s.partition_id < 3
      · have hy : ¬ (true = true ∧ s.partition_id = 3) := by
          intro hc; omega
        rw [if_pos h3, create_primary_pid, if_neg hy]
      · by_cases he3 : s.partition_id = 3
        · rw [if_neg h3, if_pos he3, if_pos ⟨rfl, he3⟩,
            andThen_ok _ (create_extended_res ok d name s)]
          show (create_logical ok d name m tn fl
              ((create_extended ok d name s).st)).st.partition_id =
            s.partition_id + 2
          rw [create_logical_pid, create_extended_pid]
        · have hy : ¬ (true = true ∧ s.partition_id = 3) := by
            intro hc; exact he3 hc.2
          rw [if_neg h3, if_neg he3, create_logical_pid, if_neg hy]

/-- Lift a pointwise event property from single `create` calls to whole
request sequences. -/
lemma runCreates_tr (ok : Nat → Bool) (d : String) (ext : Bool)
    (P : Event → Prop)
    (h : ∀ (q : Request) (s : PartitionerState),
      ∀ e ∈ (create ok d ext q.name q.mbsize q.type_name q.flags s).tr,
        P e) :
    ∀ (qs : List Request) (s : PartitionerState),
      ∀ e ∈ (runCreates ok d ext qs s).tr, P e := by
  intro qs
  induction qs with
  | nil => intro s e he; cases he
  | cons q rest ih =>
      intro s e he
      unfold runCreates at he
      rcases andThen_tr_sub _ e he with h1 | h1
      · exact h q s e h1
      · exact ih _ e h1

/-- In simple mode a completed sequence of `n` creation calls advances the
slot counter by exactly `n`. -/
lemma runCreates_simple_pid (ok : Nat → Bool) (d : String) :
    ∀ (qs : List Request) (s : PartitionerState),
      (runCreates ok d false qs s).res = .ok () →
      (runCreates ok d false qs s).st.partition_id =
        s.partition_id + qs.length := by
  intro qs
  induction qs with
  | nil => intro s _; rfl
  | cons q rest ih =>
      intro s hres
      unfold runCreates at hres ⊢
      cases hr : (create ok d false q.name q.mbsize q.type_name q.flags
          s).res with
      | ok u =>
          cases u
          rw [andThen_ok _ hr] at hres ⊢
          have h2 := ih ((create ok d false q.name q.mbsize q.type_name
            q.flags s).st) hres
          show (runCreates ok d false rest _).st.partition_id = _
          rw [h2, create_pid]
          have hy : ¬ (false = true ∧ s.partition_id = 3) := by simp
          rw [if_neg hy]
          simp [List.length_cons]
          omega
      | error er =>
          rw [andThen_err _ hr, hr] at hres
          cases hres

lemma set_flag_unknown (ok : Nat → Bool) (d : String) (pid : Nat)
    (fn : String) (s : PartitionerState) (h : flag_map fn = none) :
    set_flag ok d pid fn s =
      ⟨.error (.msDosFlagError ("Unknown partition flag " ++ fn)), s, []⟩ := by
  unfold set_flag
  rw [h]

lemma set_all_flags_unknown (ok : Nat → Bool) (d : String) (tn : String)
    (fl : List String) (s : PartitionerState) (h : flag_map tn = none) :
    set_all_flags ok d tn fl s =
      ⟨.error (.msDosFlagError ("Unknown partition flag " ++ tn)), s, []⟩ := by
  unfold set_all_flags
  rw [set_flag_unknown ok d s.partition_id tn s h]
  rfl

lemma create_primary_core_res (ok : Nat → Bool) (d name : String)
    (m : MBSize) (tn : String) (fl : List String) (s2 : PartitionerState) :
    (create_primary_core ok d name m tn fl s2).res =
      (set_all_flags ok d tn fl { s2 with cmds_run := s2.cmds_run + 1 }).res :=
  rfl

lemma create_primary_res_unknown (ok : Nat → Bool) (d name : String)
    (m : MBSize) (tn : String) (fl : List String) (s : PartitionerState)
    (h : flag_map tn = none) :
    (create_primary ok d name m tn fl s).res =
      .error (.msDosFlagError ("Unknown partition flag " ++ tn)) := by
  rw [create_primary_eq]
  split <;> rw [create_primary_core_res, set_all_flags_unknown _ _ _ _ _ h]

/-- The fdisk invocation of `_create_primary` is always in its trace. -/
lemma create_primary_tr_fdisk (ok : Nat → Bool) (d name : String)
    (m : MBSize) (tn : String) (fl : List String) (s : PartitionerState) :
    Event.fdiskCall d (.primary (s.partition_id + 1)
        (if s.partition_id + 1 > 1 then "" else startToken s.start_sector)
        (sizeToken m)) ∈ (create_primary ok d name m tn fl s).tr := by
  rw [create_primary_eq]
  by_cases h1 : s.partition_id + 1 > 1
  · rw [if_pos h1]
    simp only [create_primary_core, List.mem_cons, List.mem_append]
    refine Or.inr (Or.inl ?_)
    by_cases hok : ok s.cmds_run = true
    · rw [if_pos hok]; simp [h1, startToken]
    · rw [if_neg hok]; simp [h1, startToken]
  · rw [if_neg h1]
    simp only [create_primary_core, List.mem_cons, List.mem_append]
    refine Or.inr (Or.inl ?_)
    by_cases hok : ok s.cmds_run = true
    · rw [if_pos hok]; simp [h1]
    · rw [if_neg hok]; simp [h1]

/-- With every command succeeding, a known type code followed by an unknown
secondary flag makes `_set_all_flags` raise the unknown-flag error on the
secondary flag. -/
lemma set_all_flags_snd_unknown (d tn f1 c : String)
    (s : PartitionerState) (htn : flag_map tn = some (.pyStr c))
    (hc : c ≠ "") (hf : flag_map f1 = none) :
    (set_all_flags okAll d tn [f1] s).res =
      .error (.msDosFlagError ("Unknown partition flag " ++ f1)) := by
  have hna : tn ≠ "f.active" := by
    intro h
    rw [h] at htn
    have : flag_map "f.active" = some .pyTrue := rfl
    rw [this] at htn
    injection htn with h2
    cases h2
  have hsf : set_flag okAll d s.partition_id tn s =
      ⟨.ok (), { s with cmds_run := s.cmds_run + 1 },
        [.sfdiskCall d s.partition_id c]⟩ := by
    simp [set_flag, htn, FlagVal.truthy, hc, hna, commandRun, okAll,
      FlagVal.fmt]
  unfold set_all_flags
  rw [hsf, andThen_ok _ rfl]
  show (set_flags_loop okAll d _ [f1] _).res = _
  unfold set_flags_loop
  rw [set_flag_unknown _ _ _ _ _ hf]
  rfl

/-- Per-call form of C2: in extended mode an extended-container script is
only ever issued for slot 4, a logical script only for slots 5 and up. -/
lemma create_tr_ext4_log5 (ok : Nat → Bool) (d name : String) (m : MBSize)
    (tn : String) (fl : List String) (s : PartitionerState) :
    ∀ e ∈ (create ok d true name m tn fl s).tr,
      (∀ dv pid, e = Event.fdiskCall dv (.extended pid) → pid = 4) ∧
      (∀ dv pid sz, e = Event.fdiskCall dv (.logical pid sz) → 5 ≤ pid) := by
  intro e he
  rcases create_tr_full ok d true name m tn fl s e he with
    ⟨msg, rfl⟩ | ⟨msg, rfl⟩ | ⟨rfl, hx⟩ | ⟨rfl, hx, h3⟩ |
    ⟨pid0, rfl, hx, h3s, h5, hite⟩ | ⟨pid0, hpe, hite, h4⟩
  · exact ⟨(fun dv pid h => by simp at h), (fun dv pid sz h => by simp at h)⟩
  · exact ⟨(fun dv pid h => by simp at h), (fun dv pid sz h => by simp at h)⟩
  · exact ⟨(fun dv pid h => by simp at h), (fun dv pid sz h => by simp at h)⟩
  · constructor
    · intro dv pid h
      injection h with h1 h2
      injection h2 with h3x
      omega
    · intro dv pid sz h
      injection h with h1 h2
      injection h2
  · constructor
    · intro dv pid h
      injection h with h1 h2
      injection h2
    · intro dv pid sz h
      injection h with h1 h2
      injection h2 with hp hsz
      omega
  · rcases hpe with rfl | ⟨c, rfl⟩
    · exact ⟨(fun dv pid h => by simp at h), (fun dv pid sz h => by simp at h)⟩
    · exact ⟨(fun dv pid h => by simp at h), (fun dv pid sz h => by simp at h)⟩

/-- Per-call form of C5: a primary script carrying a non-empty start token
can only be for slot 1, in either mode. -/
lemma create_tr_primary_start (ok : Nat → Bool) (d : String) (ext : Bool)
    (name : String) (m : MBSize) (tn : String) (fl : List String)
    (s : PartitionerState) :
    ∀ e ∈ (create ok d ext name m tn fl s).tr,
      ∀ dv pid st sz, e = Event.fdiskCall dv (.primary pid st sz) →
        st ≠ "" → pid = 1 := by
  intro e he
  rcases create_tr_full ok d ext name m tn fl s e he with
    ⟨msg, rfl⟩ | ⟨msg, rfl⟩ | ⟨rfl, hx⟩ | ⟨rfl, hx, h3⟩ |
    ⟨pid0, rfl, hx, h3s, h5, hite⟩ | ⟨pid0, hpe, hite, h4⟩
  · intro dv pid st sz h; cases h
  · intro dv pid st sz h; cases h
  · intro dv pid st sz h hst
    injection h with h1 h2
    injection h2 with hp hs hz
    by_cases h1' : s.partition_id + 1 > 1
    · rw [if_pos h1'] at hs
      exact absurd hs.symm hst
    · omega
  · intro dv pid st sz h; injection h with h1 h2; injection h2
  · intro dv pid st sz h; injection h with h1 h2; injection h2
  · rcases hpe with rfl | ⟨c, rfl⟩
    · intro dv pid st sz h; cases h
    · intro dv pid st sz h; cases h

/-- Per-call form of C6: in simple mode every fdisk script is a
primary-partition script. -/
lemma create_tr_simple_primary (ok : Nat → Bool) (d name : String)
    (m : MBSize) (tn : String) (fl : List String) (s : PartitionerState) :
    ∀ e ∈ (create ok d false name m tn fl s).tr,
      ∀ dv scr, e = Event.fdiskCall dv scr →
        ∃ pid st sz, scr = FdiskScript.primary pid st sz := by
  intro e he
  rcases create_tr_full ok d false name m tn fl s e he with
    ⟨msg, rfl⟩ | ⟨msg, rfl⟩ | ⟨rfl, hx⟩ | ⟨rfl, hx, h3⟩ |
    ⟨pid0, rfl, hx, h3s, h5, hite⟩ | ⟨pid0, hpe, hite, h4⟩
  · intro dv scr h; cases h
  · intro dv scr h; cases h
  · intro dv scr h
    injection h with h1 h2
    exact ⟨_, _, _, h2.symm⟩
  · cases hx
  · cases hx
  · rcases hpe with rfl | ⟨c, rfl⟩
    · intro dv scr h; cases h
    · intro dv scr h; cases h

/-- Per-call form of C7: primary and logical scripts always carry
`sizeToken` of the requested size. -/
lemma create_tr_size (ok : Nat → Bool) (d : String) (ext : Bool)
    (name : String) (m : MBSize) (tn : String) (fl : List String)
    (s : PartitionerState) :
    ∀ e ∈ (create ok d ext name m tn fl s).tr,
      (∀ dv pid st sz, e = Event.fdiskCall dv (.primary pid st sz) →
        sz = sizeToken m) ∧
      (∀ dv pid sz, e = Event.fdiskCall dv (.logical pid sz) →
        sz = sizeToken m) := by
  intro e he
  rcases create_tr_full ok d ext name m tn fl s e he with
    ⟨msg, rfl⟩ | ⟨msg, rfl⟩ | ⟨rfl, hx⟩ | ⟨rfl, hx, h3⟩ |
    ⟨pid0, rfl, hx, h3s, h5, hite⟩ | ⟨pid0, hpe, hite, h4⟩
  · exact ⟨(fun dv pid st sz h => by simp at h), (fun dv pid sz h => by simp at h)⟩
  · exact ⟨(fun dv pid st sz h => by simp at h), (fun dv pid sz h => by simp at h)⟩
  · constructor
    · intro dv pid st sz h
      injection h with h1 h2
      injection h2 with hp hs hz
      exact hz.symm
    · intro dv pid sz h
      injection h with h1 h2
      injection h2
  · constructor
    · intro dv pid st sz h
      injection h with h1 h2
      injection h2
    · intro dv pid sz h
      injection h with h1 h2
      injection h2
  · constructor
    · intro dv pid st sz h
      injection h with h1 h2
      injection h2
    · intro dv pid sz h
      injection h with h1 h2
      injection h2 with hp hz
      exact hz.symm
  · rcases hpe with rfl | ⟨c, rfl⟩
    · exact ⟨(fun dv pid st sz h => by simp at h), (fun dv pid sz h => by simp at h)⟩
    · exact ⟨(fun dv pid st sz h => by simp at h), (fun dv pid sz h => by simp at h)⟩

/-- Per-call form of C9: in extended mode no flag invocation ever targets
slot 4, and at the boundary every flag invocation targets slot 5. -/
lemma create_tr_flag_target (ok : Nat → Bool) (d name : String)
    (m : MBSize) (tn : String) (fl : List String) (s : PartitionerState) :
    ∀ e ∈ (create ok d true name m tn fl s).tr,
      ∀ dv pid,
        (e = Event.partedCall dv pid ∨
          (∃ c, e = Event.sfdiskCall dv pid c)) →
        pid ≠ 4 ∧ (s.partition_id = 3 → pid = 5) := by
  intro e he dv pid hpe
  rcases create_tr_full ok d true name m tn fl s e he with
    ⟨msg, rfl⟩ | ⟨msg, rfl⟩ | ⟨rfl, hx⟩ | ⟨rfl, hx, h3⟩ |
    ⟨pid0, rfl, hx, h3s, h5, hite⟩ | ⟨pid0, hpe0, hite, h4⟩
  · rcases hpe with h | ⟨c, h⟩ <;> cases h
  · rcases hpe with h | ⟨c, h⟩ <;> cases h
  · rcases hpe with h | ⟨c, h⟩ <;> cases h
  · rcases hpe with h | ⟨c, h⟩ <;> cases h
  · rcases hpe with h | ⟨c, h⟩ <;> cases h
  · have hpid : pid = pid0 := by
      rcases hpe0 with rfl | ⟨c0, rfl⟩ <;> rcases hpe with h | ⟨c, h⟩
      · injection h with h1 h2; exact h2.symm
      · cases h
      · cases h
      · injection h with h1 h2 h3x; exact h2.symm
    subst hpid
    refine ⟨h4 rfl, ?_⟩
    intro he3
    rw [if_pos ⟨rfl, he3⟩] at hite
    omega

/-- `_create_extended` issues no flag invocation at all. -/
lemma create_extended_no_flags (ok : Nat → Bool) (d name : String)
    (s : PartitionerState) (dv : String) (pid : Nat) (c : String) :
    Event.partedCall dv pid ∉ (create_extended ok d name s).tr ∧
    Event.sfdiskCall dv pid c ∉ (create_extended ok d name s).tr := by
  constructor
  · intro hmem
    rcases create_extended_tr ok d name s _ hmem with ⟨msg, h⟩ | h <;> cases h
  · intro hmem
    rcases create_extended_tr ok d name s _ hmem with ⟨msg, h⟩ | h <;> cases h

/-- C1 (counterexample): the spec scenario of three requests in extended
mode does NOT produce an extended container at slot 3 and a logical
partition at slot 4: after the three requests the slot counter is 3, no
extended-container script was issued at all (neither for slot 3 nor 4), no
logical script for slot 4 was issued, and the active-boot invocation went
to slot 3, not slot 4.  The compound step is not triggered by the 3rd
request. -/
theorem C1_counterexample :
    (runCreates okAll "/dev/sda" true scenario3
      (initState (some 2048))).st.partition_id = 3 ∧
    Event.fdiskCall "/dev/sda" (FdiskScript.extended 3) ∉
      (runCreates okAll "/dev/sda" true scenario3 (initState (some 2048))).tr ∧
    Event.fdiskCall "/dev/sda" (FdiskScript.extended 4) ∉
      (runCreates okAll "/dev/sda" true scenario3 (initState (some 2048))).tr ∧
    Event.fdiskCall "/dev/sda" (FdiskScript.logical 4 "") ∉
      (runCreates okAll "/dev/sda" true scenario3 (initState (some 2048))).tr ∧
    Event.partedCall "/dev/sda" 4 ∉
      (runCreates okAll "/dev/sda" true scenario3 (initState (some 2048))).tr ∧
    Event.fdiskCall "/dev/sda" (FdiskScript.primary 3 "" "") ∈
      (runCreates okAll "/dev/sda" true scenario3 (initState (some 2048))).tr ∧
    Event.partedCall "/dev/sda" 3 ∈
      (runCreates okAll "/dev/sda" true scenario3 (initState (some 2048))).tr := by
  decide

/-- C1 (amended): in extended-layout mode it is the 4th creation request
(the one arriving with the slot counter at 3) that triggers the compound
step.  The spec scenario of three requests produces slots 1 (primary,
t.linux), 2 (primary, t.swap) and 3 (primary, t.linux) with the
active-boot invocation applied to slot 3 and the start sector supplied
only for slot 1; a 4th request (all_free, t.linux, [f.active]) then
creates the extended container at slot 4 immediately followed by a logical
partition at slot 5 carrying the caller's size/type/flags, with the
active-boot invocation applied to slot 5.  This closed run shows the whole
trace. -/
theorem C1_amended_fourth_request_compound :
    runCreates okAll "/dev/sda" true scenario4 (initState (some 2048)) =
      ⟨.ok (), ⟨5, none, 11⟩,
        [ .logDebug "boot: fdisk: n p 1 cur_position +50M w q",
          .fdiskCall "/dev/sda" (.primary 1 "2048" "+50M"),
          .sfdiskCall "/dev/sda" 1 "83",
          .logDebug "swap: fdisk: n p 2 cur_position +2048M w q",
          .fdiskCall "/dev/sda" (.primary 2 "" "+2048M"),
          .sfdiskCall "/dev/sda" 2 "82",
          .logDebug "root: fdisk: n p 3 cur_position +all_freeM w q",
          .fdiskCall "/dev/sda" (.primary 3 "" ""),
          .sfdiskCall "/dev/sda" 3 "83",
          .partedCall "/dev/sda" 3,
          .logDebug "extra: fdisk: n e 4 cur_position +all_freeM w q",
          .fdiskCall "/dev/sda" (.extended 4),
          .logDebug "extra: fdisk: n 5 cur_position +all_freeM w q",
          .fdiskCall "/dev/sda" (.logical 5 ""),
          .sfdiskCall "/dev/sda" 5 "83",
          .partedCall "/dev/sda" 5 ] ⟩ := by
  decide

/-- C2: in extended-layout mode, over any sequence of creation calls from
any state, an extended-container script is only ever issued for slot 4 and
a logical-partition script only for slots 5 and up. -/
theorem C2_extended_at_4_logical_from_5 (ok : Nat → Bool) (d : String)
    (qs : List Request) (s : PartitionerState) (dv : String) (pid : Nat)
    (sz : String) :
    (Event.fdiskCall dv (.extended pid) ∈
      (runCreates ok d true qs s).tr → pid = 4) ∧
    (Event.fdiskCall dv (.logical pid sz) ∈
      (runCreates ok d true qs s).tr → 5 ≤ pid) := by
  have H := runCreates_tr ok d true (fun e =>
      (∀ dv pid, e = Event.fdiskCall dv (.extended pid) → pid = 4) ∧
      (∀ dv pid sz, e = Event.fdiskCall dv (.logical pid sz) → 5 ≤ pid))
    (fun q s' => create_tr_ext4_log5 ok d q.name q.mbsize q.type_name
      q.flags s') qs s
  exact ⟨fun hmem => (H _ hmem).1 dv pid rfl,
    fun hmem => (H _ hmem).2 dv pid sz rfl⟩

/-- C2 witness: in the four-request scenario the extended container is
slot 4 and the one logical partition is slot 5. -/
theorem C2_witness : 4 = 4 ∧ 5 ≤ 5 :=
  ⟨(C2_extended_at_4_logical_from_5 okAll "/dev/sda" scenario4
      (initState (some 2048)) "/dev/sda" 4 "").1 (by decide),
   (C2_extended_at_4_logical_from_5 okAll "/dev/sda" scenario4
      (initState (some 2048)) "/dev/sda" 5 "").2 (by decide)⟩

/-- C3: any failure of the scripted fdisk creation invocation is swallowed
inside `_call_fdisk` (its result is always success) and logged at debug
level, while a failure of the direct flag-setting invocations of
`set_flag` (parted for the boot flag, sfdisk for a type code) raises and
propagates a command error. -/
theorem C3_fdisk_tolerant_flags_propagate (ok : Nat → Bool) (d : String)
    (scr : FdiskScript) (s : PartitionerState) (pid : Nat) (fn : String)
    (v : FlagVal) :
    ((call_fdisk ok d scr s).res = .ok ()) ∧
    (ok s.cmds_run = false →
      Event.logDebug "potential fdisk errors were ignored" ∈
        (call_fdisk ok d scr s).tr) ∧
    (ok s.cmds_run = false →
      (set_flag ok d pid "f.active" s).res = .error .commandError) ∧
    (flag_map fn = some v → v.truthy = true → ok s.cmds_run = false →
      (set_flag ok d pid fn s).res = .error .commandError) := by
  refine ⟨call_fdisk_res ok d scr s, ?_, ?_, ?_⟩
  · intro hok
    rw [call_fdisk_eq]
    show _ ∈ if ok s.cmds_run then _ else _
    rw [if_neg (by rw [hok]; simp)]
    simp
  · intro hok
    simp [set_flag, flag_map, commandRun, hok, FlagVal.truthy]
  · intro hf htr hok
    by_cases ha : fn = "f.active"
    · subst ha
      have hfa : flag_map "f.active" = some FlagVal.pyTrue := rfl
      rw [hfa] at hf
      injection hf with h2
      subst h2
      simp [set_flag, commandRun, hok, flag_map, FlagVal.truthy]
    · simp only [set_flag, hf]
      rw [if_pos htr, if_neg ha]
      simp [commandRun, hok]

/-- C3 witness: with every command failing, the fdisk path still succeeds
and logs the debug note, while the parted and sfdisk flag paths error. -/
theorem C3_witness :
    (call_fdisk okNever "/dev/sda" (.extended 4) (initState none)).res =
      .ok () ∧
    Event.logDebug "potential fdisk errors were ignored" ∈
      (call_fdisk okNever "/dev/sda" (.extended 4) (initState none)).tr ∧
    (set_flag okNever "/dev/sda" 1 "f.active" (initState none)).res =
      .error .commandError ∧
    (set_flag okNever "/dev/sda" 1 "t.linux" (initState none)).res =
      .error .commandError :=
  ⟨(C3_fdisk_tolerant_flags_propagate okNever "/dev/sda" (.extended 4)
      (initState none) 1 "t.linux" (.pyStr "83")).1,
   (C3_fdisk_tolerant_flags_propagate okNever "/dev/sda" (.extended 4)
      (initState none) 1 "t.linux" (.pyStr "83")).2.1 rfl,
   (C3_fdisk_tolerant_flags_propagate okNever "/dev/sda" (.extended 4)
      (initState none) 1 "t.linux" (.pyStr "83")).2.2.1 rfl,
   (C3_fdisk_tolerant_flags_propagate okNever "/dev/sda" (.extended 4)
      (initState none) 1 "t.linux" (.pyStr "83")).2.2.2 rfl rfl rfl⟩

/-- C4: for every partition id and every flag name outside the encoding
map, `set_flag` raises the unknown-flag error with the state untouched
(in particular no command was run) and an empty event trace — the
membership check precedes any external call. -/
theorem C4_unknown_flag_fails_fast (ok : Nat → Bool) (d : String)
    (pid : Nat) (fn : String) (s : PartitionerState)
    (h : flag_map fn = none) :
    set_flag ok d pid fn s =
      ⟨.error (.msDosFlagError ("Unknown partition flag " ++ fn)),
        s, []⟩ :=
  set_flag_unknown ok d pid fn s h

/-- C4 witness: the name `boot` is not in the map and is rejected with no
event emitted. -/
theorem C4_witness :
    flag_map "boot" = none ∧
    set_flag okAll "/dev/sda" 1 "boot" (initState none) =
      ⟨.error (.msDosFlagError "Unknown partition flag boot"),
        initState none, []⟩ :=
  ⟨rfl, C4_unknown_flag_fails_fast okAll "/dev/sda" 1 "boot"
    (initState none) rfl⟩

/-- C5: the start-sector token of a generated primary script is non-empty
only for slot 1 — every later primary script carries an empty start token
(over any request sequence, in either mode); extended and logical scripts
always render with an empty start line; and by the time a second primary
partition is created (the counter is already at least 1) the cursor is
cleared. -/
theorem C5_start_token_only_slot1 (ok : Nat → Bool) (d : String)
    (ext : Bool) (qs : List Request) (s : PartitionerState)
    (dv st sz : String) (pid : Nat) (name : String) (m : MBSize)
    (tn : String) (fl : List String) (s1 : PartitionerState) :
    (Event.fdiskCall dv (.primary pid st sz) ∈
        (runCreates ok d ext qs s).tr → st ≠ "" → pid = 1) ∧
    ((FdiskScript.extended pid).render =
      "n\ne\n" ++ toString pid ++ "\n" ++ "" ++ "\n" ++ "" ++ "\nw\nq\n") ∧
    ((FdiskScript.logical pid sz).render =
      "n\n" ++ toString pid ++ "\n" ++ "" ++ "\n" ++ sz ++ "\nw\nq\n") ∧
    (1 ≤ s1.partition_id →
      (create_primary ok d name m tn fl s1).st.start_sector = none) := by
  refine ⟨?_, rfl, rfl, ?_⟩
  · intro hmem hst
    have H := runCreates_tr ok d ext (fun e =>
        ∀ dv pid st sz, e = Event.fdiskCall dv (.primary pid st sz) →
          st ≠ "" → pid = 1)
      (fun q s' => create_tr_primary_start ok d ext q.name q.mbsize
        q.type_name q.flags s') qs s
    exact H _ hmem dv pid st sz rfl hst
  · intro h1
    rw [create_primary_ss, if_pos (by omega)]

/-- C5 witness: slot 1 of the scenario run carries the start sector 2048,
and a second primary created from a counter of 1 leaves the cursor
cleared. -/
theorem C5_witness :
    (1 : Nat) = 1 ∧
    (create_primary okAll "/dev/sda" "swap" (.mb 2048) "t.swap" []
      ⟨1, some 2048, 2⟩).st.start_sector = none :=
  ⟨(C5_start_token_only_slot1 okAll "/dev/sda" true scenario3
      (initState (some 2048)) "/dev/sda" "2048" "+50M" 1 "swap"
      (.mb 2048) "t.swap" [] ⟨1, some 2048, 2⟩).1 (by decide) (by decide),
   (C5_start_token_only_slot1 okAll "/dev/sda" true scenario3
      (initState (some 2048)) "/dev/sda" "2048" "+50M" 1 "swap"
      (.mb 2048) "t.swap" [] ⟨1, some 2048, 2⟩).2.2.2 (by decide)⟩

/-- C6: in simple (non-extended) mode every fdisk script issued over any
request sequence is a primary-partition script, and a completed sequence
of `n` creation calls from a fresh builder leaves the slot counter at
exactly `n`. -/
theorem C6_simple_mode_all_primary_count (ok : Nat → Bool) (d : String)
    (qs : List Request) (ss : Option Nat) (dv : String)
    (scr : FdiskScript) :
    (Event.fdiskCall dv scr ∈
        (runCreates ok d false qs (initState ss)).tr →
      ∃ pid st sz, scr = FdiskScript.primary pid st sz) ∧
    ((runCreates ok d false qs (initState ss)).res = .ok () →
      (runCreates ok d false qs (initState ss)).st.partition_id =
        qs.length) := by
  constructor
  · intro hmem
    have H := runCreates_tr ok d false (fun e =>
        ∀ dv scr, e = Event.fdiskCall dv scr →
          ∃ pid st sz, scr = FdiskScript.primary pid st sz)
      (fun q s' => create_tr_simple_primary ok d q.name q.mbsize
        q.type_name q.flags s') qs (initState ss)
    exact H _ hmem dv scr rfl
  · intro hres
    have h2 := runCreates_simple_pid ok d qs (initState ss) hres
    simpa [initState] using h2

/-- C6 witness: the three-request scenario in simple mode issues the
slot-1 primary script and ends with the counter equal to the number of
requests. -/
theorem C6_witness :
    (∃ pid st sz, FdiskScript.primary 1 "2048" "+50M" =
      FdiskScript.primary pid st sz) ∧
    (runCreates okAll "/dev/sda" false scenario3
      (initState (some 2048))).st.partition_id = scenario3.length :=
  ⟨(C6_simple_mode_all_primary_count okAll "/dev/sda" scenario3
      (some 2048) "/dev/sda" (.primary 1 "2048" "+50M")).1 (by decide),
   (C6_simple_mode_all_primary_count okAll "/dev/sda" scenario3
      (some 2048) "/dev/sda" (.primary 1 "2048" "+50M")).2 (by decide)⟩

/-- C7: the size token of a generated script is empty exactly for the
`all_free` sentinel, a positive (indeed any) megabyte count `n` renders
as `+<n>M`, the extended-container script always renders with an empty
size line, and the primary/logical scripts a `create` call issues carry
exactly `sizeToken` of the requested size. -/
theorem C7_size_token (ok : Nat → Bool) (d : String) (ext : Bool)
    (name : String) (m : MBSize) (tn : String) (fl : List String)
    (s : PartitionerState) (dv st sz : String) (pid : Nat) (n : Int) :
    (sizeToken m = "" ↔ m = .all_free) ∧
    (sizeToken (.mb n) = "+" ++ toString n ++ "M") ∧
    ((FdiskScript.extended pid).render =
      "n\ne\n" ++ toString pid ++ "\n" ++ "" ++ "\n" ++ "" ++ "\nw\nq\n") ∧
    (Event.fdiskCall dv (.primary pid st sz) ∈
        (create ok d ext name m tn fl s).tr → sz = sizeToken m) ∧
    (Event.fdiskCall dv (.logical pid sz) ∈
        (create ok d ext name m tn fl s).tr → sz = sizeToken m) := by
  refine ⟨⟨?_, ?_⟩, rfl, rfl, ?_, ?_⟩
  · intro h
    cases m with
    | all_free => rfl
    | mb k =>
        exfalso
        have hd := congrArg String.data h
        simp [sizeToken] at hd
  · intro h
    subst h
    rfl
  · intro hmem
    exact (create_tr_size ok d ext name m tn fl s _ hmem).1 dv pid st sz rfl
  · intro hmem
    exact (create_tr_size ok d ext name m tn fl s _ hmem).2 dv pid sz rfl

/-- C7 witness: a 50 MB request renders as `+50M` in the slot-1 primary
script, and an `all_free` request renders as an empty size token in the
logical script of slot 5. -/
theorem C7_witness :
    "+50M" = sizeToken (.mb 50) ∧ "" = sizeToken .all_free :=
  ⟨(C7_size_token okAll "/dev/sda" true "boot" (.mb 50) "t.linux" []
      (initState (some 2048)) "/dev/sda" "2048" "+50M" 1 50).2.2.2.1
    (by decide),
   (C7_size_token okAll "/dev/sda" true "root" .all_free "t.linux"
      ["f.active"] ⟨4, none, 7⟩ "/dev/sda" "" "" 5 50).2.2.2.2
    (by decide)⟩

/-- C8: `t.efi` and `t.csm` map to the unsupported sentinel (None), and for
every flag whose map entry is that sentinel, `set_flag` runs no external
command (the state, including the command counter, is unchanged), raises
no error, and emits exactly one warning log line. -/
theorem C8_unsupported_flag_warn_only (ok : Nat → Bool) (d : String)
    (pid : Nat) (fn : String) (s : PartitionerState) :
    flag_map "t.efi" = some .pyNone ∧
    flag_map "t.csm" = some .pyNone ∧
    (flag_map fn = some .pyNone →
      set_flag ok d pid fn s =
        ⟨.ok (), s,
          [.logWarning ("Flag " ++ fn ++ " ignored on msdos")]⟩) := by
  refine ⟨rfl, rfl, ?_⟩
  intro h
  simp only [set_flag, h]
  rw [if_neg (by simp [FlagVal.truthy])]

/-- C8 witness: `t.efi` on slot 2 produces only the warning. -/
theorem C8_witness :
    set_flag okAll "/dev/sda" 2 "t.efi" (initState none) =
      ⟨.ok (), initState none,
        [.logWarning "Flag t.efi ignored on msdos"]⟩ :=
  (C8_unsupported_flag_warn_only okAll "/dev/sda" 2 "t.efi"
    (initState none)).2.2 rfl

/-- C9: the extended-container creation step issues no flag invocation at
all; when a request triggers the compound step (counter at 3), every flag
invocation of that request targets slot 5, the logical partition; and over
any extended-mode request sequence no flag invocation ever targets slot 4,
the extended container. -/
theorem C9_container_never_flagged (ok : Nat → Bool) (d name : String)
    (m : MBSize) (tn : String) (fl : List String) (s : PartitionerState)
    (qs : List Request) (dv : String) (pid : Nat) (c : String) :
    (Event.partedCall dv pid ∉ (create_extended ok d name s).tr) ∧
    (Event.sfdiskCall dv pid c ∉ (create_extended ok d name s).tr) ∧
    (s.partition_id = 3 →
      (Event.partedCall dv pid ∈
        (create ok d true name m tn fl s).tr → pid = 5) ∧
      (Event.sfdiskCall dv pid c ∈
        (create ok d true name m tn fl s).tr → pid = 5)) ∧
    (Event.partedCall dv pid ∈ (runCreates ok d true qs s).tr →
      pid ≠ 4) ∧
    (Event.sfdiskCall dv pid c ∈ (runCreates ok d true qs s).tr →
      pid ≠ 4) := by
  have H := runCreates_tr ok d true (fun e =>
      ∀ dv pid, (e = Event.partedCall dv pid ∨
        (∃ c, e = Event.sfdiskCall dv pid c)) → pid ≠ 4)
    (fun q s' e he dv pid hpe =>
      (create_tr_flag_target ok d q.name q.mbsize q.type_name q.flags s'
        e he dv pid hpe).1) qs s
  refine ⟨(create_extended_no_flags ok d name s dv pid c).1,
    (create_extended_no_flags ok d name s dv pid c).2, ?_, ?_, ?_⟩
  · intro he3
    constructor
    · intro hmem
      exact (create_tr_flag_target ok d name m tn fl s _ hmem dv pid
        (Or.inl rfl)).2 he3
    · intro hmem
      exact (create_tr_flag_target ok d name m tn fl s _ hmem dv pid
        (Or.inr ⟨c, rfl⟩)).2 he3
  · intro hmem
    exact H _ hmem dv pid (Or.inl rfl)
  · intro hmem
    exact H _ hmem dv pid (Or.inr ⟨c, rfl⟩)

/-- C9 witness: the compound step from a counter of 3 flags slot 5, and in
the four-request scenario the boot flag lands on a slot other than 4;
the extended creation itself emits no parted call. -/
theorem C9_witness :
    Event.partedCall "/dev/sda" 5 ∉
      (create_extended okAll "/dev/sda" "extra" ⟨3, none, 7⟩).tr ∧
    (5 : Nat) = 5 ∧ (5 : Nat) ≠ 4 :=
  ⟨(C9_container_never_flagged okAll "/dev/sda" "extra" .all_free
      "t.linux" ["f.active"] ⟨3, none, 7⟩ scenario4 "/dev/sda" 5 "83").1,
   ((C9_container_never_flagged okAll "/dev/sda" "extra" .all_free
      "t.linux" ["f.active"] ⟨3, none, 7⟩ scenario4 "/dev/sda" 5
      "83").2.2.1 rfl).1 (by decide),
   (C9_container_never_flagged okAll "/dev/sda" "extra" .all_free
      "t.linux" ["f.active"] (initState (some 2048)) scenario4 "/dev/sda"
      5 "83").2.2.2.1 (by decide)⟩

/-- C10: `create` is not atomic with respect to the slot counter: the
counter is always advanced (and never rolled back) even when the call
raises; a simple-mode `create` whose type name is unknown still raises
the unknown-flag error with the counter advanced and the fdisk creation
script already issued; likewise, with commands succeeding, an unknown
secondary flag after a known type code raises while the counter stays
advanced. -/
theorem C10_counter_not_rolled_back (ok : Nat → Bool) (d : String)
    (ext : Bool) (name : String) (m : MBSize) (tn f1 c : String)
    (fl : List String) (s : PartitionerState) :
    (s.partition_id + 1 ≤ (create ok d ext name m tn fl s).st.partition_id) ∧
    (flag_map tn = none →
      (create ok d false name m tn fl s).res =
        .error (.msDosFlagError ("Unknown partition flag " ++ tn)) ∧
      (create ok d false name m tn fl s).st.partition_id =
        s.partition_id + 1 ∧
      Event.fdiskCall d (.primary (s.partition_id + 1)
        (if s.partition_id + 1 > 1 then "" else startToken s.start_sector)
        (sizeToken m)) ∈ (create ok d false name m tn fl s).tr) ∧
    (flag_map tn = some (.pyStr c) → c ≠ "" → flag_map f1 = none →
      (create okAll d false name m tn [f1] s).res =
        .error (.msDosFlagError ("Unknown partition flag " ++ f1)) ∧
      (create okAll d false name m tn [f1] s).st.partition_id =
        s.partition_id + 1) := by
  have hfalse : ∀ (ok2 : Nat → Bool) (fl2 : List String),
      create ok2 d false name m tn fl2 s =
        create_primary ok2 d name m tn fl2 s := by
    intro ok2 fl2
    unfold create
    rw [if_neg (by simp)]
  refine ⟨?_, ?_, ?_⟩
  · rw [create_pid]
    split <;> omega
  · intro h
    rw [hfalse]
    exact ⟨create_primary_res_unknown ok d name m tn fl s h,
      create_primary_pid ok d name m tn fl s,
      create_primary_tr_fdisk ok d name m tn fl s⟩
  · intro htn hc hf
    rw [hfalse]
    constructor
    · rw [create_primary_eq]
      split <;>
        rw [create_primary_core_res,
          set_all_flags_snd_unknown d tn f1 c _ htn hc hf]
    · exact create_primary_pid okAll d name m tn [f1] s

/-- C10 witness: a simple-mode create with the unknown type name `boot`
raises, yet the counter went from 0 to 1 and the slot-1 primary script is
in the trace; a create with type `t.linux` and unknown secondary flag
`boot` also raises with the counter advanced. -/
theorem C10_witness :
    (0 : Nat) + 1 ≤ (create okAll "/dev/sda" false "p1" (.mb 50) "boot" []
      (initState (some 2048))).st.partition_id ∧
    (create okAll "/dev/sda" false "p1" (.mb 50) "boot" []
      (initState (some 2048))).res =
      .error (.msDosFlagError "Unknown partition flag boot") ∧
    Event.fdiskCall "/dev/sda" (.primary 1 "2048" "+50M") ∈
      (create okAll "/dev/sda" false "p1" (.mb 50) "boot" []
        (initState (some 2048))).tr ∧
    (create okAll "/dev/sda" false "p1" (.mb 50) "t.linux" ["boot"]
      (initState (some 2048))).res =
      .error (.msDosFlagError "Unknown partition flag boot") ∧
    (create okAll "/dev/sda" false "p1" (.mb 50) "t.linux" ["boot"]
      (initState (some 2048))).st.partition_id = 0 + 1 := by
  have h1 := C10_counter_not_rolled_back okAll "/dev/sda" false "p1"
    (.mb 50) "boot" "x" "83" [] (initState (some 2048))
  have h2 := (C10_counter_not_rolled_back okAll "/dev/sda" false "p1"
    (.mb 50) "t.linux" "boot" "83" [] (initState (some 2048))).2.2
    rfl (by decide) rfl
  refine ⟨h1.1, (h1.2.1 rfl).1, ?_, h2.1, h2.2⟩
  have h3 := (h1.2.1 rfl).2.2
  simpa [initState, startToken] using h3

end KiwiMsDos
